import Mathlib

/-!
# UART3 serdev echo driver: byte pipeline

A shallow embedding of `src/uart_bsp/uart3_serdev_echo.c`.

* The driver keeps received bytes in a Linux `kfifo` of 4096 bytes.  The kfifo
  routines the driver calls (`kfifo_in`, `kfifo_out`, `kfifo_out_peek`,
  `kfifo_len`, `kfifo_is_empty`) are modelled operationally as the ring buffer
  they are: two free-running `unsigned int` cursors, a mask and a data array.
* The module is built for 32-bit ARM (its `.mod.c` imports `arm_copy_to_user`
  and `__aeabi_unwind_cpp_pr0`), so `size_t` and `unsigned int` are both 32 bits
  wide; arithmetic on them is taken modulo `UINT_MOD`.
* Everything the driver does to the outside world (log lines, wake-ups, calls
  into the serdev transport, scheduling) is recorded as a list of `Event`s.
  What the outside world decides (the transport's return value, whether an
  allocation or a user copy succeeds, what happens while a reader sleeps) is an
  explicit argument.
-/

namespace Uart3Echo

/-! ## Machine types and constants -/

/-- One `u8`. -/
abbrev Byte := Fin 256

/-- Modulus of `unsigned int` and of `size_t` (32-bit ARM). -/
def UINT_MOD : Nat := 4294967296

def EAGAIN : Int := 11
def ENOMEM : Int := 12
def EFAULT : Int := 14
def ERESTARTSYS : Int := 512

/-- Open flag `O_NONBLOCK` (octal 04000). -/
def O_NONBLOCK : Nat := 2048

def POLLIN : Nat := 1
def POLLRDNORM : Nat := 64

/-! ## kfifo -/

/-- The `struct __kfifo` behind `struct kfifo` (element size 1).  `in_` and
`out` are free-running `unsigned int` cursors, `mask` is `size - 1`. -/
structure kfifo where
  in_ : Nat
  out : Nat
  mask : Nat
  data : List Byte
deriving DecidableEq

/-- Write `n` bytes of `src` into memory `mem` at offset `dst`. -/
def memcpy (mem : List Byte) (dst : Nat) (src : List Byte) (n : Nat) : List Byte :=
  mem.take dst ++ src.take n ++ mem.drop (dst + n)

/-- Kernel `kfifo_len`: `in - out` in `unsigned int`. -/
def kfifo_len (f : kfifo) : Nat :=
  (f.in_ + UINT_MOD - f.out) % UINT_MOD

/-- Kernel `kfifo_is_empty`: `in == out`. -/
def kfifo_is_empty (f : kfifo) : Bool :=
  f.in_ == f.out

/-- Kernel `kfifo_unused`: `(mask + 1) - (in - out)` in `unsigned int`. -/
def kfifo_unused (f : kfifo) : Nat :=
  (f.mask + 1 + UINT_MOD - kfifo_len f) % UINT_MOD

/-- Kernel `kfifo_copy_in`: copy `len` bytes of `src` into the ring at cursor `off`,
wrapping to the start of the array. -/
def kfifo_copy_in (f : kfifo) (src : List Byte) (len off : Nat) : List Byte :=
  let size := f.mask + 1
  let off := off &&& f.mask
  let l := min len (size - off)
  let data := memcpy f.data off src l
  memcpy data 0 (src.drop l) (len - l)

/-- Kernel `kfifo_in` (`__kfifo_in`): store at most `kfifo_unused` bytes; returns the
number stored and the new fifo.  The length parameter is an `unsigned int`. -/
def kfifo_in (f : kfifo) (buf : List Byte) (n : Nat) : Nat × kfifo :=
  let len := n % UINT_MOD
  let l := kfifo_unused f
  let len := if len > l then l else len
  (len, { f with data := kfifo_copy_in f buf len f.in_, in_ := (f.in_ + len) % UINT_MOD })

/-- Kernel `kfifo_copy_out`: read `len` bytes from the ring at cursor `off`. -/
def kfifo_copy_out (f : kfifo) (len off : Nat) : List Byte :=
  let size := f.mask + 1
  let off := off &&& f.mask
  let l := min len (size - off)
  (f.data.drop off).take l ++ f.data.take (len - l)

/-- Kernel `kfifo_out_peek` (`__kfifo_out_peek`): copy up to `len` leading bytes
without moving `out`; returns the number copied and the bytes. -/
def kfifo_out_peek (f : kfifo) (len : Nat) : Nat × List Byte :=
  let len := len % UINT_MOD
  let l := kfifo_len f
  let len := if len > l then l else len
  (len, kfifo_copy_out f len f.out)

/-- Kernel `kfifo_out` (`__kfifo_out`): peek, then advance `out`. -/
def kfifo_out (f : kfifo) (len : Nat) : Nat × List Byte × kfifo :=
  let r := kfifo_out_peek f len
  (r.1, r.2, { f with out := (f.out + r.1) % UINT_MOD })

/-- The bytes currently held by the fifo, oldest first: byte `i` lives at
array index `(out + i) mod size`. -/
def kfifo_contents (f : kfifo) : List Byte :=
  (List.range (kfifo_len f)).map fun i => f.data.getD ((f.out + i) % (f.mask + 1)) 0

/-- Shape of the fifo that `kfifo_alloc(&priv->fifo, 4096, GFP_KERNEL)` creates
and that every kfifo routine keeps: a 4096-byte array, mask 4095, cursors in
`unsigned int` range and at most 4096 bytes apart. -/
def kfifo_wf (f : kfifo) : Prop :=
  f.mask = 4095 ∧ f.data.length = 4096 ∧ f.in_ < UINT_MOD ∧ f.out < UINT_MOD ∧
    kfifo_len f ≤ 4096

/-! ## Driver state and observable effects -/

/-- The fields of `struct uart3_echo_priv` that carry data.  The spinlock, the
wait queue, the delayed work item and the misc device are represented by the
events that act on them. -/
structure uart3_echo_priv where
  echo_back : Bool
  baud : Nat
  fifo : kfifo
  period_ms : Nat
deriving DecidableEq

/-- What the driver does to the rest of the kernel, in program order.  Log
events carry the formatted text. -/
inductive Event where
  | dev_info (msg : String)
  | dev_warn (msg : String)
  | dev_dbg (msg : String)
  | dev_err (msg : String)
  | wake_up_interruptible
  | serdev_device_write_buf (buf : List Byte)
  | schedule_delayed_work (ms : Nat)
  | poll_wait
  | cancel_delayed_work_sync
  | misc_register
  | misc_deregister
  | kfifo_free
  | serdev_device_open
  | serdev_device_close
  | serdev_device_set_flow_control (enable : Bool)
  | serdev_device_set_baudrate (baud : Nat)
deriving DecidableEq

/-! ## Periodic inspector: `uart3_echo_poll` -/

/-- Lowercase hexadecimal digit, as printed by the `x` conversion. -/
def hex_asc_lo (n : Nat) : Char :=
  "0123456789abcdef".toList.getD n '?'

/-- Text that `scnprintf(buf, size, "%02x ", b)` leaves in `buf`: the three
characters of the conversion, cut to `size - 1`; `scnprintf` returns its
length. -/
def scnprintf_02x (size : Nat) (b : Byte) : List Char :=
  [hex_asc_lo (b.val / 16), hex_asc_lo (b.val % 16), ' '].take (size - 1)

/-- The formatting loop of `uart3_echo_poll` (lines 55–56) over the remaining
preview bytes: `p` is the write offset, `hex` the text written so far, 97 is
`sizeof(hex)`. -/
def hex_loop : List Byte → Nat → List Char → List Char
  | [], _, hex => hex
  | b :: rest, p, hex =>
    if p + 3 < 97 then
      let s := scnprintf_02x (97 - p) b
      hex_loop rest (p + s.length) (hex.take p ++ s)
    else hex

/-- The locked section of `uart3_echo_poll` (lines 45–50): returns `total`,
`preview_len` and the bytes copied into `preview`. -/
def uart3_echo_poll_peek (priv : uart3_echo_priv) : Nat × Nat × List Byte :=
  let total := kfifo_len priv.fifo
  let preview_len := min total 32
  if preview_len ≠ 0 then
    let r := kfifo_out_peek priv.fifo preview_len
    (total, r.1, r.2)
  else (total, preview_len, [])

/-- One execution of the delayed work `uart3_echo_poll`. -/
def uart3_echo_poll (priv : uart3_echo_priv) : uart3_echo_priv × List Event :=
  let (total, preview_len, preview) := uart3_echo_poll_peek priv
  let line :=
    if total ≠ 0 then
      let hex := hex_loop (preview.take preview_len) 0 []
      Event.dev_info ("poll " ++ toString priv.period_ms ++ " ms: fifo " ++ toString total ++
        " bytes, first " ++ toString preview_len ++ ": " ++ String.mk hex ++ "\n")
    else
      Event.dev_dbg ("poll " ++ toString priv.period_ms ++ " ms: no data\n")
  (priv, [line, Event.schedule_delayed_work priv.period_ms])

/-! ## Receive path: `uart3_echo_receive` -/

/-- The serdev `receive_buf` callback.  `drvdata` is what
`serdev_device_get_drvdata` returns, `buf`/`count` the chunk, `tx` the
transport behind `serdev_device_write_buf`.  Returns the value reported to the
caller, the driver data afterwards and the events. -/
def uart3_echo_receive (tx : List Byte → Int) (drvdata : Option uart3_echo_priv)
    (buf : List Byte) (count : Nat) : Nat × Option uart3_echo_priv × List Event :=
  let ev0 := [Event.dev_info ("rx " ++ toString count ++ " bytes\n")]
  match drvdata with
  | none => (count, none, ev0)
  | some priv =>
    let (priv, ev1) :=
      if count ≠ 0 then
        let r := kfifo_in priv.fifo buf count
        let n_in := r.1
        let warn :=
          if n_in < count then
            [Event.dev_warn ("fifo overflow: dropped " ++ toString (count - n_in) ++ " bytes\n")]
          else []
        let wake := if n_in ≠ 0 then [Event.wake_up_interruptible] else []
        ({ priv with fifo := r.2 }, warn ++ wake)
      else (priv, [])
    let ev2 :=
      if priv.echo_back ∧ count ≠ 0 then
        let n := tx (buf.take count)
        [Event.serdev_device_write_buf (buf.take count),
         Event.dev_info ("echoed " ++ toString n ++ " bytes\n")]
      else []
    (count, some priv, ev0 ++ ev1 ++ ev2)

/-! ## Stream endpoint: `uart3_echo_chr_read`, `_poll`, `_write` -/

/-- What can happen while a reader sleeps in `wait_event_interruptible`: the
transport delivers a chunk to `uart3_echo_receive`, or a signal arrives. -/
inductive WaitEvent where
  | receive (buf : List Byte) (count : Nat)
  | signal
deriving DecidableEq

/-- Kernel `wait_event_interruptible(priv->read_wq, !kfifo_is_empty(&priv->fifo))`
against a schedule of things that happen while the caller sleeps.  The
condition is tested first and again after every event; a signal makes the wait
return `-ERESTARTSYS`.  Returns `none` when the schedule ends with the caller
still asleep. -/
def wait_event_interruptible (tx : List Byte → Int) :
    uart3_echo_priv → List WaitEvent → Option (Int × uart3_echo_priv × List Event)
  | priv, [] =>
    if !kfifo_is_empty priv.fifo then some (0, priv, []) else none
  | priv, e :: rest =>
    if !kfifo_is_empty priv.fifo then some (0, priv, [])
    else
      match e with
      | WaitEvent.signal => some (-ERESTARTSYS, priv, [])
      | WaitEvent.receive buf count =>
        match uart3_echo_receive tx (some priv) buf count with
        | (_, some priv1, ev) =>
          (wait_event_interruptible tx priv1 rest).map fun r => (r.1, r.2.1, ev ++ r.2.2)
        | (_, none, _) => none

/-- Environment of one `read` call. -/
structure ReadEnv where
  during_wait : List WaitEvent
  kmalloc_ok : Bool
  copy_to_user_ok : Bool

/-- Outcome of one `read` call: return value, driver data afterwards, the bytes
copied to the user buffer (if `copy_to_user` ran and succeeded) and the events. -/
structure ReadResult where
  ret : Int
  priv : uart3_echo_priv
  ubuf : Option (List Byte)
  events : List Event
deriving DecidableEq

/-- Lines 128–147 of `uart3_echo_chr_read`: clamp, allocate, drain, copy out. -/
def uart3_echo_chr_read_drain (env : ReadEnv) (priv : uart3_echo_priv) (len : Nat)
    (events : List Event) : ReadResult :=
  let want := min len 4096
  if !env.kmalloc_ok then ⟨-ENOMEM, priv, none, events⟩
  else
    let r := kfifo_out priv.fifo want
    let copied := r.1
    let kbuf := r.2.1
    let priv := { priv with fifo := r.2.2 }
    if copied = 0 then ⟨0, priv, none, events⟩
    else if !env.copy_to_user_ok then ⟨-EFAULT, priv, none, events⟩
    else ⟨copied, priv, some kbuf, events⟩

/-- The `read` file operation.  Returns `none` when the caller is still asleep in
the wait at the end of `env.during_wait`. -/
def uart3_echo_chr_read (tx : List Byte → Int) (env : ReadEnv) (priv : uart3_echo_priv)
    (f_flags len : Nat) : Option ReadResult :=
  if len = 0 then some ⟨0, priv, none, []⟩
  else if kfifo_is_empty priv.fifo then
    if f_flags &&& O_NONBLOCK ≠ 0 then some ⟨-EAGAIN, priv, none, []⟩
    else
      match wait_event_interruptible tx priv env.during_wait with
      | none => none
      | some (ret, priv1, ev) =>
        if ret ≠ 0 then some ⟨ret, priv1, none, ev⟩
        else some (uart3_echo_chr_read_drain env priv1 len ev)
  else some (uart3_echo_chr_read_drain env priv len [])

/-- The `poll` file operation: returns the mask. -/
def uart3_echo_chr_poll (priv : uart3_echo_priv) : Nat × uart3_echo_priv × List Event :=
  let mask := 0
  let mask := if !kfifo_is_empty priv.fifo then mask ||| (POLLIN ||| POLLRDNORM) else mask
  (mask, priv, [Event.poll_wait])

/-- Kernel `memdup_user(ubuf, len)`: a kernel copy of the first `len` user bytes,
or an error pointer when the allocation fails (`fail` carries the code) or the
user range is not readable. -/
def memdup_user (fail : Option Int) (ubuf : List Byte) (len : Nat) : Except Int (List Byte) :=
  match fail with
  | some e => Except.error e
  | none => if ubuf.length < len then Except.error (-EFAULT) else Except.ok (ubuf.take len)

/-- The `write` file operation. -/
def uart3_echo_chr_write (tx : List Byte → Int) (fail : Option Int) (priv : uart3_echo_priv)
    (ubuf : List Byte) (len : Nat) : Int × uart3_echo_priv × List Event :=
  if len = 0 then (0, priv, [])
  else
    let len := if len > 4096 then 4096 else len
    match memdup_user fail ubuf len with
    | Except.error e => (e, priv, [])
    | Except.ok kbuf =>
      let n := tx (kbuf.take len)
      if n < 0 then (n, priv, [Event.serdev_device_write_buf (kbuf.take len)])
      else (n, priv, [Event.serdev_device_write_buf (kbuf.take len)])

/-! ## Binding: `uart3_echo_probe` -/

/-- What the rest of the kernel answers during one `uart3_echo_probe` call: the
device properties (absent properties leave the defaults in place) and the
results of the calls that can fail. -/
structure ProbeEnv where
  current_speed : Option Nat
  echo : Bool
  poll_period_ms : Option Nat
  devm_kzalloc_ok : Bool
  kfifo_alloc_ret : Int
  serdev_device_open_ret : Int
  serdev_device_set_baudrate_ret : Nat
  misc_register_ret : Int

/-- The greeting `"[kernel] uart3-echo online\r\n"` sent by the probe, as bytes
(`sizeof(hello) - 1` of them). -/
def hello : List Byte :=
  "[kernel] uart3-echo online\r\n".toList.map fun c => Fin.ofNat c.toNat

/-- The serdev `probe` callback.  Returns its return value, the driver data of a
device that stays bound (`none` when the probe fails) and the kernel calls it
makes, in program order.  A successful `kfifo_alloc` yields `fifo`. -/
def uart3_echo_probe (env : ProbeEnv) (fifo : kfifo) : Int × Option uart3_echo_priv × List Event :=
  let baud := env.current_speed.getD 115200
  let echo_back := env.echo
  let period_ms := env.poll_period_ms.getD 1000
  if !env.devm_kzalloc_ok then (-ENOMEM, none, [])
  else
    let priv : uart3_echo_priv := ⟨echo_back, baud, fifo, period_ms⟩
    if env.kfifo_alloc_ret ≠ 0 then
      (env.kfifo_alloc_ret, none,
        [Event.dev_err ("failed to alloc fifo: " ++ toString env.kfifo_alloc_ret ++ "\n")])
    else if env.serdev_device_open_ret ≠ 0 then
      (env.serdev_device_open_ret, none,
        [Event.serdev_device_open,
         Event.dev_err ("failed to open serdev: " ++ toString env.serdev_device_open_ret ++ "\n"),
         Event.kfifo_free])
    else
      let ev1 :=
        [Event.serdev_device_open, Event.serdev_device_set_flow_control false,
         Event.serdev_device_set_baudrate baud] ++
        (if env.serdev_device_set_baudrate_ret = 0 then
          [Event.dev_info ("configured baudrate " ++ toString baud ++ "\n")] else []) ++
        [Event.serdev_device_write_buf hello,
         Event.schedule_delayed_work priv.period_ms,
         Event.misc_register]
      if env.misc_register_ret ≠ 0 then
        (env.misc_register_ret, none,
          ev1 ++
          [Event.dev_err ("failed to register miscdev: " ++ toString env.misc_register_ret ++ "\n"),
           Event.cancel_delayed_work_sync, Event.serdev_device_close, Event.kfifo_free])
      else
        (0, some priv,
          ev1 ++
          [Event.dev_info ("echo_back=" ++ toString (if priv.echo_back then 1 else 0) ++
            ", poll-period-ms=" ++ toString priv.period_ms ++ "\n")])

/-! ## Teardown: `uart3_echo_remove` -/

/-- The serdev `remove` callback: the kernel calls it makes, in program order. -/
def uart3_echo_remove (drvdata : Option uart3_echo_priv) : List Event :=
  (match drvdata with
    | some _ => [Event.cancel_delayed_work_sync, Event.misc_deregister, Event.kfifo_free]
    | none => []) ++
  [Event.serdev_device_close]

/-! ## Driving the receive path -/

/-- Deliver a sequence of chunks in arrival order, one `uart3_echo_receive` call
per chunk with `count` the chunk length; returns the driver data afterwards and
all events. -/
def receive_chunks (tx : List Byte → Int) :
    Option uart3_echo_priv → List (List Byte) → Option uart3_echo_priv × List Event
  | drvdata, [] => (drvdata, [])
  | drvdata, c :: cs =>
    let r := uart3_echo_receive tx drvdata c c.length
    let r2 := receive_chunks tx r.2.1 cs
    (r2.1, r.2.2 ++ r2.2)

/-- A receive delivered during a wait is well formed when its `count` is a
`size_t` and does not exceed the chunk it points to. -/
def WaitEvent.ok : WaitEvent → Prop
  | WaitEvent.receive buf count => count < UINT_MOD ∧ count ≤ buf.length
  | WaitEvent.signal => True

/-- Driver data after `n` executions of the inspector. -/
def poll_times (n : Nat) (priv : uart3_echo_priv) : uart3_echo_priv :=
  (fun p => (uart3_echo_poll p).1)^[n] priv

/-! ## Concrete states used to instantiate the results -/

/-- The fifo right after `kfifo_alloc(&priv->fifo, 4096, GFP_KERNEL)`: both
cursors at 0, mask 4095 (the bytes of the fresh array are never read before
they are written; they are taken to be 0). -/
def fresh_fifo : kfifo := ⟨0, 0, 4095, List.replicate 4096 0⟩

/-- Driver data right after a successful probe with the default properties
(115200 baud, no echo, 1000 ms inspector period). -/
def fresh_priv : uart3_echo_priv := ⟨false, 115200, fresh_fifo, 1000⟩

/-- A transport whose send primitive always fails with `-EIO`. -/
def failing_tx : List Byte → Int := fun _ => -5

/-- A transport that accepts every byte it is handed. -/
def accepting_tx : List Byte → Int := fun buf => buf.length

/-- A fifo holding the three bytes 1, 2, 3 with `out` one below the
`unsigned int` limit: the `in` cursor has wrapped past 2^32 and the bytes
straddle the end of the array (index 4095, then 0 and 1). -/
def wrapped_fifo : kfifo := ⟨2, 4294967295, 4095, [2, 3] ++ List.replicate 4093 0 ++ [1]⟩

/-- Driver data with echo-back enabled around `wrapped_fifo`. -/
def wrapped_priv : uart3_echo_priv := ⟨true, 115200, wrapped_fifo, 1000⟩

/-- The ten bytes 1..10. -/
def ten_bytes : List Byte := [1, 2, 3, 4, 5, 6, 7, 8, 9, 10]

/-! ## The inspector's line as the specification words it -/

/-- Two-digit lowercase hexadecimal numeral of a byte (zero padded) followed by
one space: one group of the preview, written from the wording of the
specification and independently of the formatting code. -/
def hex_group_spec (b : Byte) : List Char :=
  let d := Nat.toDigits 16 b.val
  (if d.length < 2 then '0' :: d else d) ++ [' ']

/-- Forty buffered bytes 0, 1, .., 39. -/
def forty_bytes : List Byte := (List.range 40).map fun i => Fin.ofNat i

/-- A fifo holding `forty_bytes`. -/
def forty_fifo : kfifo := ⟨40, 0, 4095, forty_bytes ++ List.replicate 4056 0⟩

/-- Driver data of Scenario E: inspector period 1000 ms, forty bytes buffered. -/
def forty_priv : uart3_echo_priv := ⟨false, 115200, forty_fifo, 1000⟩

/-- The probe environment in which everything succeeds except `misc_register`,
which fails with `-EBUSY`. -/
def misc_register_fails : ProbeEnv := ⟨none, false, none, true, 0, 0, 115200, -16⟩

/-! ## The ring buffer implements a FIFO queue -/

theorem and_mask_4095 (x : Nat) : x &&& 4095 = x % 4096 :=
  Nat.and_pow_two_sub_one_eq_mod x 12

theorem memcpy_length (mem src : List Byte) (dst n : Nat)
    (hn : n ≤ src.length) (hd : dst + n ≤ mem.length) :
    (memcpy mem dst src n).length = mem.length := by
  simp only [memcpy, List.length_append, List.length_take, List.length_drop]
  omega

theorem memcpy_get (mem src : List Byte) (dst n j : Nat)
    (hn : n ≤ src.length) (hd : dst + n ≤ mem.length) :
    (memcpy mem dst src n)[j]? =
      if dst ≤ j ∧ j < dst + n then src[j - dst]? else mem[j]? := by
  simp only [memcpy, List.getElem?_append, List.length_append, List.length_take,
    List.getElem?_take, List.getElem?_drop]
  split_ifs <;> first
    | rfl
    | omega
    | (congr 1; omega)

theorem kfifo_copy_in_length (f : kfifo) (src : List Byte) (len off : Nat)
    (hm : f.mask = 4095) (hl : f.data.length = 4096) (hlen : len ≤ 4096)
    (hsrc : len ≤ src.length) :
    (kfifo_copy_in f src len off).length = 4096 := by
  have ho : off % 4096 < 4096 := Nat.mod_lt _ (by decide)
  simp only [kfifo_copy_in, hm, and_mask_4095]
  rw [memcpy_length, memcpy_length, hl]
  · omega
  · omega
  · rw [List.length_drop]; omega
  · rw [memcpy_length, hl] <;> omega

theorem kfifo_copy_in_get (f : kfifo) (src : List Byte) (len off j : Nat)
    (hm : f.mask = 4095) (hl : f.data.length = 4096) (hlen : len ≤ 4096)
    (hsrc : len ≤ src.length) (hj : j < 4096) :
    (kfifo_copy_in f src len off)[j]? =
      if (j + 4096 - off % 4096) % 4096 < len then src[(j + 4096 - off % 4096) % 4096]?
      else f.data[j]? := by
  have ho : off % 4096 < 4096 := Nat.mod_lt _ (by decide)
  simp only [kfifo_copy_in, hm, and_mask_4095]
  rw [memcpy_get, memcpy_get, List.getElem?_drop]
  · split_ifs <;> first
      | rfl
      | omega
      | (congr 1; omega)
  · omega
  · omega
  · rw [List.length_drop]; omega
  · rw [memcpy_length, hl] <;> omega

theorem kfifo_contents_length (f : kfifo) : (kfifo_contents f).length = kfifo_len f := by
  simp [kfifo_contents]

theorem kfifo_contents_get (f : kfifo) (i : Nat)
    (hm : f.mask = 4095) (hl : f.data.length = 4096) :
    (kfifo_contents f)[i]? = if i < kfifo_len f then f.data[(f.out + i) % 4096]? else none := by
  have hb : (f.out + i) % 4096 < f.data.length := by rw [hl]; exact Nat.mod_lt _ (by decide)
  simp only [kfifo_contents, List.getElem?_map, hm]
  split_ifs with h
  · rw [List.getElem?_range h, List.getElem?_eq_getElem hb]
    simp only [Option.map_some', List.getD_eq_getElem?_getD]
    rw [List.getElem?_eq_getElem hb]
    rfl
  · rw [List.getElem?_eq_none (by simpa using h)]
    rfl

theorem kfifo_in_fst (f : kfifo) (buf : List Byte) (n : Nat) (hf : kfifo_wf f)
    (hn : n < UINT_MOD) :
    (kfifo_in f buf n).1 = min n (4096 - kfifo_len f) := by
  obtain ⟨hm, hl, hi, ho, hlen⟩ := hf
  simp only [kfifo_in, kfifo_unused, hm, UINT_MOD] at *
  split_ifs <;> omega

theorem kfifo_in_wf (f : kfifo) (buf : List Byte) (n : Nat) (hf : kfifo_wf f)
    (hn : n < UINT_MOD) (hb : n ≤ buf.length) :
    kfifo_wf (kfifo_in f buf n).2 := by
  have h1 := kfifo_in_fst f buf n hf hn
  obtain ⟨hm, hl, hi, ho, hlen⟩ := hf
  simp only [kfifo_in] at h1
  refine ⟨hm, ?_, ?_, ho, ?_⟩
  · simp only [kfifo_in]
    apply kfifo_copy_in_length _ _ _ _ hm hl <;> omega
  · simp only [kfifo_in, UINT_MOD]; omega
  · simp only [kfifo_in, kfifo_len, UINT_MOD] at *; omega

theorem kfifo_in_len (f : kfifo) (buf : List Byte) (n : Nat) (hf : kfifo_wf f)
    (hn : n < UINT_MOD) :
    kfifo_len (kfifo_in f buf n).2 = kfifo_len f + min n (4096 - kfifo_len f) := by
  have h1 := kfifo_in_fst f buf n hf hn
  obtain ⟨hm, hl, hi, ho, hlen⟩ := hf
  simp only [kfifo_in] at h1
  simp only [kfifo_in, kfifo_len, UINT_MOD] at *; omega

theorem kfifo_in_contents (f : kfifo) (buf : List Byte) (n : Nat) (hf : kfifo_wf f)
    (hn : n < UINT_MOD) (hb : n ≤ buf.length) :
    kfifo_contents (kfifo_in f buf n).2 =
      kfifo_contents f ++ buf.take (min n (4096 - kfifo_len f)) := by
  have hw := kfifo_in_wf f buf n hf hn hb
  have h1 := kfifo_in_fst f buf n hf hn
  have h2 := kfifo_in_len f buf n hf hn
  obtain ⟨hm, hl, hi, ho, hlen⟩ := hf
  apply List.ext_getElem?
  intro i
  rw [kfifo_contents_get _ _ hw.1 hw.2.1, h2, List.getElem?_append,
    kfifo_contents_length, kfifo_contents_get _ _ hm hl, List.getElem?_take]
  simp only [kfifo_in] at h1 ⊢
  rw [h1]
  by_cases hi2 : i < kfifo_len f + min n (4096 - kfifo_len f)
  · rw [kfifo_copy_in_get _ _ _ _ _ hm hl (by omega) (by omega)
      (Nat.mod_lt _ (by decide))]
    simp only [kfifo_len, UINT_MOD] at *
    split_ifs <;> first
      | rfl
      | omega
      | (congr 1; omega)
  · simp only [kfifo_len, UINT_MOD] at *
    split_ifs <;> first
      | rfl
      | omega

theorem kfifo_copy_out_get (f : kfifo) (len off i : Nat)
    (hm : f.mask = 4095) (hl : f.data.length = 4096) (hlen : len ≤ 4096) :
    (kfifo_copy_out f len off)[i]? =
      if i < len then f.data[(off + i) % 4096]? else none := by
  have ho : off % 4096 < 4096 := Nat.mod_lt _ (by decide)
  simp only [kfifo_copy_out, hm, and_mask_4095, List.getElem?_append, List.length_take,
    List.length_drop, List.getElem?_take, List.getElem?_drop, hl]
  split_ifs <;> first
    | rfl
    | omega
    | (congr 1; omega)

theorem kfifo_out_peek_fst (f : kfifo) (n : Nat) (hn : n < UINT_MOD) :
    (kfifo_out_peek f n).1 = min n (kfifo_len f) := by
  simp only [kfifo_out_peek, UINT_MOD] at *
  split_ifs <;> omega

theorem kfifo_out_peek_snd (f : kfifo) (n : Nat) (hf : kfifo_wf f) (hn : n < UINT_MOD) :
    (kfifo_out_peek f n).2 = (kfifo_contents f).take n := by
  have h1 := kfifo_out_peek_fst f n hn
  obtain ⟨hm, hl, hi, ho, hlen⟩ := hf
  simp only [kfifo_out_peek] at h1 ⊢
  rw [h1]
  apply List.ext_getElem?
  intro i
  rw [kfifo_copy_out_get _ _ _ _ hm hl (by omega), List.getElem?_take,
    kfifo_contents_get _ _ hm hl]
  split_ifs <;> first
    | rfl
    | omega

theorem kfifo_out_fst (f : kfifo) (n : Nat) (hn : n < UINT_MOD) :
    (kfifo_out f n).1 = min n (kfifo_len f) := by
  simp only [kfifo_out, kfifo_out_peek_fst f n hn]

theorem kfifo_out_bytes (f : kfifo) (n : Nat) (hf : kfifo_wf f) (hn : n < UINT_MOD) :
    (kfifo_out f n).2.1 = (kfifo_contents f).take n := by
  simp only [kfifo_out, kfifo_out_peek_snd f n hf hn]

theorem kfifo_out_wf (f : kfifo) (n : Nat) (hf : kfifo_wf f) (hn : n < UINT_MOD) :
    kfifo_wf (kfifo_out f n).2.2 := by
  have h1 := kfifo_out_peek_fst f n hn
  obtain ⟨hm, hl, hi, ho, hlen⟩ := hf
  simp only [kfifo_out]
  rw [h1]
  refine ⟨hm, hl, hi, ?_, ?_⟩
  · simp only [UINT_MOD]; omega
  · simp only [kfifo_len, UINT_MOD] at *; omega

theorem kfifo_out_len (f : kfifo) (n : Nat) (hf : kfifo_wf f) (hn : n < UINT_MOD) :
    kfifo_len (kfifo_out f n).2.2 = kfifo_len f - min n (kfifo_len f) := by
  have h1 := kfifo_out_peek_fst f n hn
  obtain ⟨hm, hl, hi, ho, hlen⟩ := hf
  simp only [kfifo_out]
  rw [h1]
  simp only [kfifo_len, UINT_MOD] at *; omega

theorem kfifo_out_contents (f : kfifo) (n : Nat) (hf : kfifo_wf f) (hn : n < UINT_MOD) :
    kfifo_contents (kfifo_out f n).2.2 = (kfifo_contents f).drop n := by
  have hw := kfifo_out_wf f n hf hn
  have h2 := kfifo_out_len f n hf hn
  have h1 := kfifo_out_peek_fst f n hn
  obtain ⟨hm, hl, hi, ho, hlen⟩ := hf
  apply List.ext_getElem?
  intro i
  rw [kfifo_contents_get _ _ hw.1 hw.2.1, h2, List.getElem?_drop,
    kfifo_contents_get _ _ hm hl]
  simp only [kfifo_out]
  rw [h1]
  simp only [kfifo_len, UINT_MOD] at *
  split_ifs <;> first
    | rfl
    | omega
    | (congr 1; omega)

theorem kfifo_is_empty_iff (f : kfifo) (hf : kfifo_wf f) :
    kfifo_is_empty f = true ↔ kfifo_contents f = [] := by
  obtain ⟨hm, hl, hi, ho, hlen⟩ := hf
  rw [← List.length_eq_zero, kfifo_contents_length]
  simp only [kfifo_is_empty, kfifo_len, UINT_MOD, beq_iff_eq] at *
  omega

/-! ## Receive path -/

/-- Effect of one `uart3_echo_receive` call on a bound device, for a chunk of
`count ≥ 1` bytes: return value, new fifo and events in terms of `kfifo_in`. -/
theorem uart3_echo_receive_eq (tx : List Byte → Int) (priv : uart3_echo_priv)
    (buf : List Byte) (count : Nat) (hc : count ≠ 0) :
    uart3_echo_receive tx (some priv) buf count =
      (count, some { priv with fifo := (kfifo_in priv.fifo buf count).2 },
        [Event.dev_info ("rx " ++ toString count ++ " bytes\n")] ++
        ((if (kfifo_in priv.fifo buf count).1 < count then
            [Event.dev_warn ("fifo overflow: dropped " ++
              toString (count - (kfifo_in priv.fifo buf count).1) ++ " bytes\n")]
          else []) ++
         (if (kfifo_in priv.fifo buf count).1 ≠ 0 then [Event.wake_up_interruptible] else [])) ++
        (if priv.echo_back then
          [Event.serdev_device_write_buf (buf.take count),
           Event.dev_info ("echoed " ++ toString (tx (buf.take count)) ++ " bytes\n")]
         else [])) := by
  simp [uart3_echo_receive, hc]

theorem uart3_echo_receive_zero (tx : List Byte → Int) (priv : uart3_echo_priv)
    (buf : List Byte) :
    uart3_echo_receive tx (some priv) buf 0 =
      (0, some priv, [Event.dev_info ("rx " ++ toString 0 ++ " bytes\n")]) := by
  simp [uart3_echo_receive]

theorem take_min_length {α : Type} (l : List α) (n : Nat) :
    l.take (min n l.length) = l.take n := by
  rcases Nat.le_total n l.length with h | h
  · rw [Nat.min_eq_left h]
  · rw [Nat.min_eq_right h, List.take_length, List.take_of_length_le h]

/-- Buffer effect of one `uart3_echo_receive` call on a bound device, for any
`count` that is a `size_t` within the chunk. -/
theorem uart3_echo_receive_fifo (tx : List Byte → Int) (priv : uart3_echo_priv)
    (buf : List Byte) (count : Nat) (hf : kfifo_wf priv.fifo) (hsz : count < UINT_MOD)
    (hb : count ≤ buf.length) :
    ∃ priv1 ev, uart3_echo_receive tx (some priv) buf count = (count, some priv1, ev) ∧
      kfifo_wf priv1.fifo ∧
      kfifo_contents priv1.fifo =
        kfifo_contents priv.fifo ++ buf.take (min count (4096 - kfifo_len priv.fifo)) ∧
      (count = 0 → priv1 = priv) := by
  by_cases hc : count = 0
  · subst hc
    refine ⟨priv, _, uart3_echo_receive_zero tx priv buf, hf, ?_, fun _ => rfl⟩
    simp
  · refine ⟨_, _, uart3_echo_receive_eq tx priv buf count hc, ?_, ?_, fun h => absurd h hc⟩
    · exact kfifo_in_wf _ _ _ hf hsz hb
    · exact kfifo_in_contents _ _ _ hf hsz hb

theorem receive_chunks_contents (tx : List Byte → Int) (cs : List (List Byte)) :
    ∀ priv : uart3_echo_priv, kfifo_wf priv.fifo →
      kfifo_len priv.fifo + cs.flatten.length ≤ 4096 →
      ∃ priv1, (receive_chunks tx (some priv) cs).1 = some priv1 ∧ kfifo_wf priv1.fifo ∧
        kfifo_contents priv1.fifo = kfifo_contents priv.fifo ++ cs.flatten := by
  induction cs with
  | nil =>
    intro priv hf _
    exact ⟨priv, rfl, hf, by simp⟩
  | cons c cs ih =>
    intro priv hf hlen
    rw [List.flatten_cons, List.length_append] at hlen
    obtain ⟨p1, ev, h1, hw1, hc1, -⟩ :=
      uart3_echo_receive_fifo tx priv c c.length hf (by unfold UINT_MOD; omega) (le_refl _)
    have hmin : min c.length (4096 - kfifo_len priv.fifo) = c.length := by omega
    rw [hmin, List.take_length] at hc1
    have hl1 : kfifo_len p1.fifo = kfifo_len priv.fifo + c.length := by
      rw [← kfifo_contents_length, hc1, List.length_append, kfifo_contents_length]
    obtain ⟨p2, h2, hw2, hc2⟩ := ih p1 hw1 (by omega)
    refine ⟨p2, ?_, hw2, ?_⟩
    · simp only [receive_chunks, h1, h2]
    · rw [hc2, hc1, List.flatten_cons, List.append_assoc]

/-- The drain part of `read` on a non-empty buffer when allocation and copy-out
succeed. -/
theorem uart3_echo_chr_read_drain_eq (env : ReadEnv) (priv : uart3_echo_priv) (len : Nat)
    (ev : List Event) (hf : kfifo_wf priv.fifo) (hne : kfifo_contents priv.fifo ≠ [])
    (hlen : len ≠ 0) (hk : env.kmalloc_ok = true) (hc : env.copy_to_user_ok = true) :
    ∃ priv1, uart3_echo_chr_read_drain env priv len ev =
        ⟨((min len (min 4096 (kfifo_contents priv.fifo).length) : Nat) : Int), priv1,
          some ((kfifo_contents priv.fifo).take (min len (min 4096 (kfifo_contents priv.fifo).length))),
          ev⟩ ∧
      kfifo_wf priv1.fifo ∧
      kfifo_contents priv1.fifo =
        (kfifo_contents priv.fifo).drop (min len (min 4096 (kfifo_contents priv.fifo).length)) := by
  have hw : min len 4096 < UINT_MOD := by unfold UINT_MOD; omega
  have hl : 0 < (kfifo_contents priv.fifo).length := List.length_pos.mpr hne
  have hl2 : (kfifo_contents priv.fifo).length ≤ 4096 := by
    rw [kfifo_contents_length]; exact hf.2.2.2.2
  have hmin : min len (min 4096 (kfifo_contents priv.fifo).length) =
      min (min len 4096) (kfifo_len priv.fifo) := by
    rw [kfifo_contents_length]; omega
  have hcop : (kfifo_out priv.fifo (min len 4096)).1 ≠ 0 := by
    rw [kfifo_out_fst _ _ hw, ← kfifo_contents_length]; omega
  refine ⟨{ priv with fifo := (kfifo_out priv.fifo (min len 4096)).2.2 }, ?_, ?_, ?_⟩
  · simp only [uart3_echo_chr_read_drain, hk, hc, hcop, Bool.not_true, if_false,
      Bool.false_eq_true]
    rw [kfifo_out_fst _ _ hw, kfifo_out_bytes _ _ hf hw, hmin]
    congr 2
    rw [← kfifo_contents_length, take_min_length]
  · exact kfifo_out_wf _ _ hf hw
  · show kfifo_contents (kfifo_out priv.fifo (min len 4096)).2.2 = _
    rw [kfifo_out_contents _ _ hf hw]
    have : min len (min 4096 (kfifo_contents priv.fifo).length) = min len 4096 ∨
        (kfifo_contents priv.fifo).length ≤ min len 4096 ∧
        min len (min 4096 (kfifo_contents priv.fifo).length) = (kfifo_contents priv.fifo).length := by
      omega
    rcases this with h | ⟨h1, h2⟩
    · rw [h]
    · rw [h2, List.drop_length, List.drop_eq_nil_of_le h1]

theorem fresh_fifo_wf : kfifo_wf fresh_fifo :=
  ⟨rfl, List.length_replicate _ _, by decide, by decide, by decide⟩

theorem fresh_fifo_contents : kfifo_contents fresh_fifo = [] := by
  rw [← List.length_eq_zero, kfifo_contents_length]
  decide

theorem wrapped_fifo_wf : kfifo_wf wrapped_fifo :=
  ⟨rfl, by
    show ([2, 3] ++ List.replicate 4093 (0 : Byte) ++ [1]).length = 4096
    rw [List.length_append, List.length_append, List.length_replicate]; rfl,
   by decide, by decide, by decide⟩

set_option maxRecDepth 100000 in
theorem wrapped_fifo_contents : kfifo_contents wrapped_fifo = [1, 2, 3] := by
  decide

theorem kfifo_contents_realizable (b : List Byte) (hb : b.length ≤ 4096) :
    ∃ f : kfifo, kfifo_wf f ∧ kfifo_contents f = b := by
  have hlen : kfifo_len ⟨b.length, 0, 4095, b ++ List.replicate (4096 - b.length) 0⟩ = b.length := by
    simp only [kfifo_len, UINT_MOD]; omega
  have hdl : (b ++ List.replicate (4096 - b.length) (0 : Byte)).length = 4096 := by
    rw [List.length_append, List.length_replicate]; omega
  refine ⟨⟨b.length, 0, 4095, b ++ List.replicate (4096 - b.length) 0⟩, ⟨rfl, hdl, ?_, ?_, ?_⟩, ?_⟩
  · show b.length < UINT_MOD
    unfold UINT_MOD; omega
  · show 0 < UINT_MOD
    unfold UINT_MOD; omega
  · rw [hlen]; exact hb
  · apply List.ext_getElem?
    intro i
    rw [kfifo_contents_get _ _ rfl hdl, hlen]
    split_ifs with h
    · show (b ++ List.replicate (4096 - b.length) (0 : Byte))[(0 + i) % 4096]? = b[i]?
      rw [Nat.zero_add, Nat.mod_eq_of_lt (by omega), List.getElem?_append_left h]
    · exact (List.getElem?_eq_none (by omega)).symm


/-! ## Blocking wait -/

theorem wait_event_interruptible_nonempty (tx : List Byte → Int) (priv : uart3_echo_priv)
    (sched : List WaitEvent) (h : kfifo_is_empty priv.fifo = false) :
    wait_event_interruptible tx priv sched = some (0, priv, []) := by
  cases sched <;> simp [wait_event_interruptible, h]

theorem wait_event_interruptible_signal (tx : List Byte → Int) (priv : uart3_echo_priv)
    (rest : List WaitEvent) (h : kfifo_is_empty priv.fifo = true) :
    wait_event_interruptible tx priv (WaitEvent.signal :: rest) =
      some (-ERESTARTSYS, priv, []) := by
  simp [wait_event_interruptible, h]

theorem wait_event_interruptible_receive (tx : List Byte → Int) (priv priv1 : uart3_echo_priv)
    (buf : List Byte) (count : Nat) (ev : List Event) (rest : List WaitEvent)
    (h : kfifo_is_empty priv.fifo = true)
    (hr : uart3_echo_receive tx (some priv) buf count = (count, some priv1, ev)) :
    wait_event_interruptible tx priv (WaitEvent.receive buf count :: rest) =
      (wait_event_interruptible tx priv1 rest).map fun r => (r.1, r.2.1, ev ++ r.2.2) := by
  simp [wait_event_interruptible, h, hr]

/-- What `wait_event_interruptible` can return: 0 with a non-empty buffer, or
`-ERESTARTSYS` with the driver data exactly as they were at the start. -/
theorem wait_event_interruptible_spec (tx : List Byte → Int) (sched : List WaitEvent) :
    ∀ priv : uart3_echo_priv, kfifo_wf priv.fifo → (∀ e ∈ sched, WaitEvent.ok e) →
      ∀ ret p1 ev, wait_event_interruptible tx priv sched = some (ret, p1, ev) →
        kfifo_wf p1.fifo ∧
          ((ret = 0 ∧ kfifo_contents p1.fifo ≠ []) ∨ (ret = -ERESTARTSYS ∧ p1 = priv)) := by
  induction sched with
  | nil =>
    intro priv hf _ ret p1 ev h
    by_cases hemp : kfifo_is_empty priv.fifo = true
    · simp [wait_event_interruptible, hemp] at h
    · have hemp2 : kfifo_is_empty priv.fifo = false := by simpa using hemp
      rw [wait_event_interruptible_nonempty tx priv [] hemp2] at h
      simp only [Option.some.injEq, Prod.mk.injEq] at h
      obtain ⟨rfl, rfl, -⟩ := h
      exact ⟨hf, Or.inl ⟨rfl, fun hc => hemp ((kfifo_is_empty_iff _ hf).mpr hc)⟩⟩
  | cons e rest ih =>
    intro priv hf hok ret p1 ev h
    by_cases hemp : kfifo_is_empty priv.fifo = true
    · cases e with
      | signal =>
        rw [wait_event_interruptible_signal tx priv rest hemp] at h
        simp only [Option.some.injEq, Prod.mk.injEq] at h
        obtain ⟨rfl, rfl, -⟩ := h
        exact ⟨hf, Or.inr ⟨rfl, rfl⟩⟩
      | receive buf count =>
        have hk : WaitEvent.ok (WaitEvent.receive buf count) := hok _ (List.mem_cons_self _ _)
        obtain ⟨q, evq, hq, hwq, hcq, hzq⟩ :=
          uart3_echo_receive_fifo tx priv buf count hf hk.1 hk.2
        rw [wait_event_interruptible_receive tx priv q buf count evq rest hemp hq] at h
        cases hw : wait_event_interruptible tx q rest with
        | none => rw [hw] at h; simp at h
        | some res =>
          obtain ⟨ret2, p2, ev2⟩ := res
          rw [hw] at h
          simp only [Option.map_some', Option.some.injEq, Prod.mk.injEq] at h
          obtain ⟨rfl, rfl, -⟩ := h
          obtain ⟨hw2, hcase⟩ :=
            ih q hwq (fun e he => hok e (List.mem_cons_of_mem _ he)) ret2 p2 ev2 hw
          refine ⟨hw2, ?_⟩
          rcases hcase with h0 | ⟨hr, hp⟩
          · exact Or.inl h0
          · right
            refine ⟨hr, ?_⟩
            by_cases hc0 : count = 0
            · rw [hp, hzq hc0]
            · exfalso
              have hqe : kfifo_is_empty q.fifo = false :=  by
                rw [← Bool.not_eq_true, kfifo_is_empty_iff _ hwq, hcq]
                intro hnil
                have hlen := congrArg List.length hnil
                have hl0 : kfifo_len priv.fifo = 0 := by
                  rw [← kfifo_contents_length, (kfifo_is_empty_iff _ hf).mp hemp]; rfl
                rw [List.length_append, List.length_take, hl0] at hlen
                simp only [List.length_nil] at hlen
                have := hk.2
                omega
              rw [wait_event_interruptible_nonempty tx q rest hqe] at hw
              simp only [Option.some.injEq, Prod.mk.injEq] at hw
              rw [← hw.1] at hr
              exact absurd hr (by decide)
    · have hemp2 : kfifo_is_empty priv.fifo = false := by simpa using hemp
      rw [wait_event_interruptible_nonempty tx priv _ hemp2] at h
      simp only [Option.some.injEq, Prod.mk.injEq] at h
      obtain ⟨rfl, rfl, -⟩ := h
      exact ⟨hf, Or.inl ⟨rfl, fun hc => hemp ((kfifo_is_empty_iff _ hf).mpr hc)⟩⟩

/-! ## Verified properties of the byte pipeline -/

/-- C1: on a bound device whose buffer holds `b`, receiving a non-empty chunk `c`
leaves the buffer holding `b` followed by the first `min |c| (4096 - |b|)` bytes
of `c`; an overflow warning is logged exactly when bytes were dropped and it
carries `|c| - min |c| (4096 - |b|)`; when `c` exceeds the free space the
buffer ends up holding 4096 bytes. -/
theorem C1_receive_appends_and_counts_drops (tx : List Byte → Int) (priv : uart3_echo_priv)
    (c : List Byte) (hf : kfifo_wf priv.fifo) (hc : c ≠ []) (hsz : c.length < UINT_MOD) :
    ∃ priv1 : uart3_echo_priv,
      uart3_echo_receive tx (some priv) c c.length =
        (c.length, some priv1,
          [Event.dev_info ("rx " ++ toString c.length ++ " bytes\n")] ++
          ((if min c.length (4096 - (kfifo_contents priv.fifo).length) < c.length then
              [Event.dev_warn ("fifo overflow: dropped " ++
                toString (c.length - min c.length (4096 - (kfifo_contents priv.fifo).length)) ++
                " bytes\n")]
            else []) ++
           (if min c.length (4096 - (kfifo_contents priv.fifo).length) ≠ 0 then
              [Event.wake_up_interruptible] else [])) ++
          (if priv.echo_back then
            [Event.serdev_device_write_buf c,
             Event.dev_info ("echoed " ++ toString (tx c) ++ " bytes\n")]
           else [])) ∧
      kfifo_wf priv1.fifo ∧
      kfifo_contents priv1.fifo =
        kfifo_contents priv.fifo ++
          c.take (min c.length (4096 - (kfifo_contents priv.fifo).length)) ∧
      (4096 - (kfifo_contents priv.fifo).length < c.length →
        (kfifo_contents priv1.fifo).length = 4096) := by
  have hc0 : c.length ≠ 0 := by simpa using hc
  have hlen : kfifo_len priv.fifo ≤ 4096 := hf.2.2.2.2
  refine ⟨{ priv with fifo := (kfifo_in priv.fifo c c.length).2 }, ?_, ?_, ?_, ?_⟩
  · rw [uart3_echo_receive_eq tx priv c c.length hc0, kfifo_in_fst _ _ _ hf hsz,
      kfifo_contents_length, List.take_length]
  · exact kfifo_in_wf _ _ _ hf hsz (le_refl _)
  · rw [kfifo_contents_length]
    exact kfifo_in_contents _ _ _ hf hsz (le_refl _)
  · intro h
    rw [kfifo_contents_length] at h
    rw [kfifo_contents_length]
    show kfifo_len (kfifo_in priv.fifo c c.length).2 = 4096
    rw [kfifo_in_len _ _ _ hf hsz]
    omega

theorem C1_witness :
    ∃ priv1 : uart3_echo_priv,
      (uart3_echo_receive failing_tx (some fresh_priv) (List.replicate 5000 7) 5000).2.1 =
        some priv1 ∧
      (kfifo_contents priv1.fifo).length = 4096 ∧
      Event.dev_warn "fifo overflow: dropped 904 bytes\n" ∈
        (uart3_echo_receive failing_tx (some fresh_priv) (List.replicate 5000 7) 5000).2.2 := by
  have hlen : (List.replicate 5000 (7 : Byte)).length = 5000 := List.length_replicate _ _
  have hb : (kfifo_contents fresh_priv.fifo).length = 0 := by
    rw [show fresh_priv.fifo = fresh_fifo from rfl, fresh_fifo_contents]; rfl
  obtain ⟨priv1, h1, -, -, h4⟩ :=
    C1_receive_appends_and_counts_drops failing_tx fresh_priv (List.replicate 5000 7)
      fresh_fifo_wf
      (fun h => absurd (congrArg List.length h) (by rw [hlen]; decide))
      (by rw [hlen]; decide)
  rw [hlen] at h1 h4
  simp only [hb] at h1 h4
  refine ⟨priv1, by rw [h1], h4 (by omega), ?_⟩
  rw [h1]
  have hs : ("fifo overflow: dropped " ++ toString (5000 - min 5000 (4096 - 0)) ++ " bytes\n")
      = "fifo overflow: dropped 904 bytes\n" := by decide
  have hm : min 5000 (4096 - 0) < 5000 := by decide
  simp only [hs, hm, if_true, List.mem_append, List.mem_singleton, true_or, or_true]

/-- C2: starting from an empty buffer, after a sequence of received chunks whose
total length `n` is at most 4096, a read of `n` bytes (allocation and copy-out
succeeding) returns `n` and delivers exactly the concatenation of the chunks in
arrival order, and leaves the buffer empty. -/
theorem C2_chunks_then_read_roundtrip (tx : List Byte → Int) (env : ReadEnv)
    (priv : uart3_echo_priv) (cs : List (List Byte)) (f_flags : Nat)
    (hf : kfifo_wf priv.fifo) (he : kfifo_contents priv.fifo = [])
    (hn : cs.flatten.length ≤ 4096)
    (hk : env.kmalloc_ok = true) (hc : env.copy_to_user_ok = true) :
    ∃ priv1 r, (receive_chunks tx (some priv) cs).1 = some priv1 ∧
      uart3_echo_chr_read tx env priv1 f_flags cs.flatten.length = some r ∧
      r.ret = (cs.flatten.length : Int) ∧ r.ubuf.getD [] = cs.flatten ∧
      kfifo_contents r.priv.fifo = [] ∧ kfifo_len r.priv.fifo = 0 := by
  have hl0 : kfifo_len priv.fifo = 0 := by rw [← kfifo_contents_length, he]; rfl
  obtain ⟨priv1, h1, hw1, hc1⟩ := receive_chunks_contents tx cs priv hf (by omega)
  rw [he, List.nil_append] at hc1
  by_cases hz : cs.flatten.length = 0
  · have hnil : cs.flatten = [] := List.length_eq_zero.mp hz
    have hl1 : kfifo_len priv1.fifo = 0 := by rw [← kfifo_contents_length, hc1, hnil]; rfl
    refine ⟨priv1, ⟨0, priv1, none, []⟩, h1, ?_, ?_, ?_, ?_, hl1⟩
    · simp [uart3_echo_chr_read, hz]
    · simp [hz]
    · simp [hnil]
    · rw [hc1, hnil]
  · have hne : kfifo_contents priv1.fifo ≠ [] := by
      rw [hc1]; exact fun h => hz (by rw [h]; rfl)
    have hemp : kfifo_is_empty priv1.fifo = false := by
      rw [← Bool.not_eq_true, kfifo_is_empty_iff _ hw1]; exact hne
    obtain ⟨p2, hd, hw2, hc2⟩ :=
      uart3_echo_chr_read_drain_eq env priv1 cs.flatten.length [] hw1 hne hz hk hc
    have hmin : min cs.flatten.length (min 4096 (kfifo_contents priv1.fifo).length) =
        cs.flatten.length := by rw [hc1]; omega
    rw [hmin] at hd hc2
    rw [hc1] at hd hc2
    rw [List.take_length] at hd
    rw [List.drop_length] at hc2
    refine ⟨priv1, ⟨(cs.flatten.length : Int), p2, some cs.flatten, []⟩, h1, ?_, rfl, rfl,
      hc2, ?_⟩
    · simp only [uart3_echo_chr_read, hz, hemp, if_false, Bool.false_eq_true]
      rw [hd]
    · rw [← kfifo_contents_length]
      show (kfifo_contents p2.fifo).length = 0
      rw [hc2]; rfl

theorem C2_witness :
    ∃ priv1 r, (receive_chunks accepting_tx (some fresh_priv) [[1, 2], [3]]).1 = some priv1 ∧
      uart3_echo_chr_read accepting_tx ⟨[], true, true⟩ priv1 0 3 = some r ∧
      r.ret = 3 ∧ r.ubuf.getD [] = [1, 2, 3] ∧
      kfifo_contents r.priv.fifo = [] ∧ kfifo_len r.priv.fifo = 0 :=
  C2_chunks_then_read_roundtrip accepting_tx ⟨[], true, true⟩ fresh_priv [[1, 2], [3]] 0
    fresh_fifo_wf fresh_fifo_contents (by decide) rfl rfl

/-- C3: on a non-empty buffer holding `b`, a read of `len ≥ 1` bytes whose
allocation and copy-out succeed returns `k = min len (min 4096 |b|)`, delivers
the first `k` bytes of `b` in order, leaves the remaining bytes of `b` in the
buffer in their order, and `k` never exceeds `min len 4096`. -/
theorem C3_read_returns_fifo_prefix (tx : List Byte → Int) (env : ReadEnv)
    (priv : uart3_echo_priv) (f_flags len : Nat)
    (hf : kfifo_wf priv.fifo) (hne : kfifo_contents priv.fifo ≠ []) (hlen : 1 ≤ len)
    (hk : env.kmalloc_ok = true) (hc : env.copy_to_user_ok = true) :
    ∃ r, uart3_echo_chr_read tx env priv f_flags len = some r ∧
      r.ret = ((min len (min 4096 (kfifo_contents priv.fifo).length) : Nat) : Int) ∧
      r.ubuf = some ((kfifo_contents priv.fifo).take
        (min len (min 4096 (kfifo_contents priv.fifo).length))) ∧
      kfifo_contents r.priv.fifo = (kfifo_contents priv.fifo).drop
        (min len (min 4096 (kfifo_contents priv.fifo).length)) ∧
      r.events = [] ∧
      r.ret ≤ ((min len 4096 : Nat) : Int) := by
  have hz : len ≠ 0 := by omega
  have hemp : kfifo_is_empty priv.fifo = false := by
    rw [← Bool.not_eq_true, kfifo_is_empty_iff _ hf]; exact hne
  obtain ⟨p2, hd, -, hc2⟩ := uart3_echo_chr_read_drain_eq env priv len [] hf hne hz hk hc
  refine ⟨⟨((min len (min 4096 (kfifo_contents priv.fifo).length) : Nat) : Int), p2,
    some ((kfifo_contents priv.fifo).take (min len (min 4096 (kfifo_contents priv.fifo).length))),
    []⟩, ?_, rfl, rfl, hc2, rfl, ?_⟩
  · simp only [uart3_echo_chr_read, hz, hemp, if_false, Bool.false_eq_true]
    rw [hd]
  · show ((min len (min 4096 (kfifo_contents priv.fifo).length) : Nat) : Int) ≤ _
    exact Int.ofNat_le.mpr (by omega)

theorem C3_witness :
    ∃ r, uart3_echo_chr_read accepting_tx ⟨[], true, true⟩ wrapped_priv 0 2 = some r ∧
      r.ret = 2 ∧ r.ubuf = some [1, 2] ∧ kfifo_contents r.priv.fifo = [3] := by
  obtain ⟨r, h1, h2, h3, h4, -, -⟩ :=
    C3_read_returns_fifo_prefix accepting_tx ⟨[], true, true⟩ wrapped_priv 0 2
      wrapped_fifo_wf (by rw [show wrapped_priv.fifo = wrapped_fifo from rfl,
        wrapped_fifo_contents]; decide) (by decide) rfl rfl
  rw [show wrapped_priv.fifo = wrapped_fifo from rfl, wrapped_fifo_contents] at h2 h3 h4
  exact ⟨r, h1, h2, h3, h4⟩

/-- C4: `uart3_echo_receive` returns exactly `count`, whatever the driver data
(present or not, buffer full or not, echo on or off), the chunk and the
transport's answer. -/
theorem C4_receive_reports_whole_chunk (tx : List Byte → Int)
    (drvdata : Option uart3_echo_priv) (buf : List Byte) (count : Nat) :
    (uart3_echo_receive tx drvdata buf count).1 = count := by
  cases drvdata with
  | none => rfl
  | some priv => rfl

/-- C5: a read of `len ≥ 1` bytes with `O_NONBLOCK` set on an empty buffer
returns `-EAGAIN`, whatever would have happened during a wait; nothing is
delivered, no event occurs and the driver data are unchanged. -/
theorem C5_nonblocking_read_on_empty (tx : List Byte → Int) (env : ReadEnv)
    (priv : uart3_echo_priv) (f_flags len : Nat)
    (hf : kfifo_wf priv.fifo) (he : kfifo_contents priv.fifo = []) (hlen : 1 ≤ len)
    (hnb : f_flags &&& O_NONBLOCK ≠ 0) :
    uart3_echo_chr_read tx env priv f_flags len = some ⟨-EAGAIN, priv, none, []⟩ := by
  have hz : len ≠ 0 := by omega
  have hemp : kfifo_is_empty priv.fifo = true := (kfifo_is_empty_iff _ hf).mpr he
  simp only [uart3_echo_chr_read, hz, hemp, hnb, if_false, if_true, ne_eq, not_false_eq_true]

theorem C5_witness :
    kfifo_wf fresh_priv.fifo ∧ kfifo_contents fresh_priv.fifo = [] ∧ 1 ≤ 10 ∧
      O_NONBLOCK &&& O_NONBLOCK ≠ 0 ∧
      uart3_echo_chr_read accepting_tx ⟨[WaitEvent.receive [1] 1], true, true⟩ fresh_priv
        O_NONBLOCK 10 = some ⟨-EAGAIN, fresh_priv, none, []⟩ :=
  ⟨fresh_fifo_wf, fresh_fifo_contents, by decide, by decide,
    C5_nonblocking_read_on_empty accepting_tx ⟨[WaitEvent.receive [1] 1], true, true⟩ fresh_priv
      O_NONBLOCK 10 fresh_fifo_wf fresh_fifo_contents (by decide) (by decide)⟩

/-- C6: a blocking read of `len ≥ 1` bytes on an empty buffer.  (1) If a signal
arrives first, the read returns `-ERESTARTSYS`.  (2) Whenever the wait returns a
non-zero code, the read returns that code, delivers nothing and the driver data
are exactly as before the call.  (3) If a non-empty chunk `c` arrives first and
allocation and copy-out succeed, the read returns `k = min len (min 4096 |c|) ≥ 1`
and delivers the first `k` bytes of `c`.  (4) Whenever the wait returns 0, the
buffer is non-empty and the read delivers its leading `k ≥ 1` bytes, leaving the
rest. -/
theorem C6_blocking_read_on_empty (tx : List Byte → Int) (priv : uart3_echo_priv)
    (sched : List WaitEvent) (km cu : Bool) (f_flags len : Nat)
    (hf : kfifo_wf priv.fifo) (he : kfifo_contents priv.fifo = []) (hlen : 1 ≤ len)
    (hb : f_flags &&& O_NONBLOCK = 0) (hok : ∀ e ∈ sched, WaitEvent.ok e) :
    (∀ rest, sched = WaitEvent.signal :: rest →
      uart3_echo_chr_read tx ⟨sched, km, cu⟩ priv f_flags len =
        some ⟨-ERESTARTSYS, priv, none, []⟩) ∧
    (∀ ret p1 ev, wait_event_interruptible tx priv sched = some (ret, p1, ev) → ret ≠ 0 →
      uart3_echo_chr_read tx ⟨sched, km, cu⟩ priv f_flags len = some ⟨ret, priv, none, ev⟩) ∧
    (∀ c rest, sched = WaitEvent.receive c c.length :: rest → c ≠ [] → km = true → cu = true →
      ∃ r, uart3_echo_chr_read tx ⟨sched, km, cu⟩ priv f_flags len = some r ∧
        r.ret = ((min len (min 4096 c.length) : Nat) : Int) ∧ 0 < r.ret ∧
        r.ubuf = some (c.take (min len (min 4096 c.length)))) ∧
    (∀ p1 ev, wait_event_interruptible tx priv sched = some (0, p1, ev) → km = true → cu = true →
      kfifo_contents p1.fifo ≠ [] ∧
      ∃ r, uart3_echo_chr_read tx ⟨sched, km, cu⟩ priv f_flags len = some r ∧
        r.ret = ((min len (min 4096 (kfifo_contents p1.fifo).length) : Nat) : Int) ∧ 0 < r.ret ∧
        r.ubuf = some ((kfifo_contents p1.fifo).take
          (min len (min 4096 (kfifo_contents p1.fifo).length))) ∧
        kfifo_contents r.priv.fifo = (kfifo_contents p1.fifo).drop
          (min len (min 4096 (kfifo_contents p1.fifo).length))) := by
  have hz : len ≠ 0 := by omega
  have hemp : kfifo_is_empty priv.fifo = true := (kfifo_is_empty_iff _ hf).mpr he
  have hl0 : kfifo_len priv.fifo = 0 := by rw [← kfifo_contents_length, he]; rfl
  -- the read, once the wait has returned
  have hread : ∀ ret p1 ev, wait_event_interruptible tx priv sched = some (ret, p1, ev) →
      uart3_echo_chr_read tx ⟨sched, km, cu⟩ priv f_flags len =
        if ret ≠ 0 then some ⟨ret, p1, none, ev⟩
        else some (uart3_echo_chr_read_drain ⟨sched, km, cu⟩ p1 len ev) := by
    intro ret p1 ev hw
    simp only [uart3_echo_chr_read, hz, hemp, hb, hw, if_false, if_true, ne_eq,
      not_true_eq_false]
  -- the data case
  have hdata : ∀ p1 ev, wait_event_interruptible tx priv sched = some (0, p1, ev) →
      km = true → cu = true →
      kfifo_contents p1.fifo ≠ [] ∧
      ∃ r, uart3_echo_chr_read tx ⟨sched, km, cu⟩ priv f_flags len = some r ∧
        r.ret = ((min len (min 4096 (kfifo_contents p1.fifo).length) : Nat) : Int) ∧ 0 < r.ret ∧
        r.ubuf = some ((kfifo_contents p1.fifo).take
          (min len (min 4096 (kfifo_contents p1.fifo).length))) ∧
        kfifo_contents r.priv.fifo = (kfifo_contents p1.fifo).drop
          (min len (min 4096 (kfifo_contents p1.fifo).length)) := by
    intro p1 ev hw hkm hcu
    obtain ⟨hw1, hcase⟩ := wait_event_interruptible_spec tx sched priv hf hok 0 p1 ev hw
    have hne : kfifo_contents p1.fifo ≠ [] := by
      rcases hcase with h | h
      · exact h.2
      · exact absurd h.1 (by decide)
    have hpos : 0 < (kfifo_contents p1.fifo).length := List.length_pos.mpr hne
    obtain ⟨p2, hd, -, hc2⟩ :=
      uart3_echo_chr_read_drain_eq ⟨sched, km, cu⟩ p1 len ev hw1 hne hz hkm hcu
    refine ⟨hne, ⟨((min len (min 4096 (kfifo_contents p1.fifo).length) : Nat) : Int), p2,
      some ((kfifo_contents p1.fifo).take (min len (min 4096 (kfifo_contents p1.fifo).length))),
      ev⟩, ?_, rfl, ?_, rfl, hc2⟩
    · rw [hread 0 p1 ev hw, ← hd]; rfl
    · show (0 : Int) < ((min len (min 4096 (kfifo_contents p1.fifo).length) : Nat) : Int)
      have hk0 : 0 < min len (min 4096 (kfifo_contents p1.fifo).length) := by omega
      exact_mod_cast hk0
  refine ⟨?_, ?_, ?_, hdata⟩
  · intro rest hs
    have hw := wait_event_interruptible_signal tx priv rest hemp
    rw [← hs] at hw
    rw [hread _ _ _ hw]
    rfl
  · intro ret p1 ev hw hret
    obtain ⟨-, hcase⟩ := wait_event_interruptible_spec tx sched priv hf hok ret p1 ev hw
    rcases hcase with h | h
    · exact absurd h.1 hret
    · rw [hread _ _ _ hw, if_pos hret, h.2]
  · intro c rest hs hc hkm hcu
    have hk : WaitEvent.ok (WaitEvent.receive c c.length) := hok _ (by rw [hs]; exact List.mem_cons_self _ _)
    obtain ⟨q, evq, hq, hwq, hcq, -⟩ := uart3_echo_receive_fifo tx priv c c.length hf hk.1 hk.2
    rw [he, hl0, List.nil_append] at hcq
    have hcpos : 0 < c.length := List.length_pos.mpr hc
    have hql : (kfifo_contents q.fifo).length = min c.length 4096 := by
      rw [hcq, List.length_take]; omega
    have hqe : kfifo_is_empty q.fifo = false := by
      rw [← Bool.not_eq_true, kfifo_is_empty_iff _ hwq]
      intro hnil
      rw [hnil] at hql
      simp only [List.length_nil] at hql
      omega
    have hw : wait_event_interruptible tx priv sched = some (0, q, evq ++ []) := by
      rw [hs, wait_event_interruptible_receive tx priv q c c.length evq rest hemp hq,
        wait_event_interruptible_nonempty tx q rest hqe]
      rfl
    obtain ⟨-, r, hr, hret, hpos, hub, -⟩ := hdata q _ hw hkm hcu
    have hkk : min len (min 4096 (kfifo_contents q.fifo).length) = min len (min 4096 c.length) := by
      rw [hql]; omega
    rw [hkk] at hret hub
    refine ⟨r, hr, hret, hpos, ?_⟩
    rw [hub, hcq, List.take_take]
    congr 2
    omega

theorem C6_witness :
    uart3_echo_chr_read accepting_tx
        ⟨[WaitEvent.signal, WaitEvent.receive ten_bytes 10], true, true⟩ fresh_priv 0 10 =
      some ⟨-ERESTARTSYS, fresh_priv, none, []⟩ ∧
    ∃ r, uart3_echo_chr_read accepting_tx ⟨[WaitEvent.receive ten_bytes 10], true, true⟩
        fresh_priv 0 10 = some r ∧ r.ret = 10 ∧ r.ubuf = some ten_bytes :=
  ⟨(C6_blocking_read_on_empty accepting_tx fresh_priv
      [WaitEvent.signal, WaitEvent.receive ten_bytes 10] true true 0 10
      fresh_fifo_wf fresh_fifo_contents (by decide) (by decide)
      (by
        intro e he
        simp only [List.mem_cons, List.mem_singleton, List.not_mem_nil, or_false] at he
        rcases he with rfl | rfl
        · trivial
        · exact ⟨by decide, by decide⟩)).1 _ rfl,
   by
    obtain ⟨r, h1, h2, -, h4⟩ :=
      (C6_blocking_read_on_empty accepting_tx fresh_priv [WaitEvent.receive ten_bytes 10]
        true true 0 10 fresh_fifo_wf fresh_fifo_contents (by decide) (by decide)
        (by
          intro e he
          simp only [List.mem_singleton] at he
          subst he
          exact ⟨by decide, by decide⟩)).2.2.1 ten_bytes [] rfl (by decide) rfl rfl
    exact ⟨r, h1, h2, h4⟩⟩

/-- C7: zero-length endpoint operations return 0 and never an error.  A read
with `len = 0` returns 0 in every driver state, with or without `O_NONBLOCK`,
whatever the environment; it does not wait, delivers nothing and leaves the
driver data unchanged.  A write with `len = 0` returns 0 and does not call
the transport. -/
theorem C7_zero_length_operations (tx : List Byte → Int) (env : ReadEnv)
    (priv : uart3_echo_priv) (f_flags : Nat) (fail : Option Int) (ubuf : List Byte) :
    uart3_echo_chr_read tx env priv f_flags 0 = some ⟨0, priv, none, []⟩ ∧
    uart3_echo_chr_write tx fail priv ubuf 0 = (0, priv, []) :=
  ⟨rfl, rfl⟩

/-- C8: a write of `len ≥ 1` bytes whose copy-in succeeds hands exactly the first
`min len 4096` user bytes to `serdev_device_write_buf`, once, and returns what
the transport returned, negative or not; the driver data are unchanged. -/
theorem C8_write_forwards_clamped (tx : List Byte → Int) (priv : uart3_echo_priv)
    (ubuf : List Byte) (len : Nat) (hlen : 1 ≤ len) (hu : min len 4096 ≤ ubuf.length) :
    uart3_echo_chr_write tx none priv ubuf len =
      (tx (ubuf.take (min len 4096)), priv,
        [Event.serdev_device_write_buf (ubuf.take (min len 4096))]) := by
  have hz : len ≠ 0 := by omega
  have hcl : (if len > 4096 then 4096 else len) = min len 4096 := by
    split_ifs <;> omega
  have hnl : ¬ ubuf.length < min len 4096 := by omega
  simp only [uart3_echo_chr_write, hz, if_false, hcl, memdup_user, hnl, List.take_take,
    Nat.min_self]
  split_ifs <;> rfl

theorem C8_witness :
    uart3_echo_chr_write failing_tx none fresh_priv [1, 2, 3] 3 =
      (-5, fresh_priv, [Event.serdev_device_write_buf [1, 2, 3]]) :=
  C8_write_forwards_clamped failing_tx fresh_priv [1, 2, 3] 3 (by decide) (by decide)

/-- C9: the `poll` file operation returns `POLLIN | POLLRDNORM` exactly when the
buffer is non-empty and the empty mask exactly when it is empty, and leaves
the driver data unchanged. -/
theorem C9_poll_readable_iff_nonempty (priv : uart3_echo_priv) (hf : kfifo_wf priv.fifo) :
    ((uart3_echo_chr_poll priv).1 = POLLIN ||| POLLRDNORM ↔ kfifo_contents priv.fifo ≠ []) ∧
    ((uart3_echo_chr_poll priv).1 = 0 ↔ kfifo_contents priv.fifo = []) ∧
    (uart3_echo_chr_poll priv).2.1 = priv := by
  have hiff := kfifo_is_empty_iff priv.fifo hf
  have hne : POLLIN ||| POLLRDNORM ≠ 0 := by decide
  refine ⟨?_, ?_, rfl⟩
  · by_cases hemp : kfifo_is_empty priv.fifo = true
    · have hc := hiff.mp hemp
      have hm : (uart3_echo_chr_poll priv).1 = 0 := by simp [uart3_echo_chr_poll, hemp]
      rw [hm]
      exact ⟨fun h => absurd h.symm hne, fun h => absurd hc h⟩
    · have hemp2 : kfifo_is_empty priv.fifo = false := by simpa using hemp
      have hm : (uart3_echo_chr_poll priv).1 = POLLIN ||| POLLRDNORM := by
        simp [uart3_echo_chr_poll, hemp2]
      rw [hm]
      exact ⟨fun _ h => hemp (hiff.mpr h), fun _ => rfl⟩
  · by_cases hemp : kfifo_is_empty priv.fifo = true
    · have hc := hiff.mp hemp
      have hm : (uart3_echo_chr_poll priv).1 = 0 := by simp [uart3_echo_chr_poll, hemp]
      rw [hm]
      exact ⟨fun _ => hc, fun _ => rfl⟩
    · have hemp2 : kfifo_is_empty priv.fifo = false := by simpa using hemp
      have hm : (uart3_echo_chr_poll priv).1 = POLLIN ||| POLLRDNORM := by
        simp [uart3_echo_chr_poll, hemp2]
      rw [hm]
      exact ⟨fun h => absurd h hne, fun h => absurd (hiff.mpr h) hemp⟩

theorem C9_witness :
    kfifo_wf wrapped_priv.fifo ∧ (uart3_echo_chr_poll wrapped_priv).1 = 65 ∧
      (uart3_echo_chr_poll fresh_priv).1 = 0 :=
  ⟨wrapped_fifo_wf,
    (C9_poll_readable_iff_nonempty wrapped_priv wrapped_fifo_wf).1.mpr
      (by rw [show wrapped_priv.fifo = wrapped_fifo from rfl, wrapped_fifo_contents]; decide),
    (C9_poll_readable_iff_nonempty fresh_priv fresh_fifo_wf).2.1.mpr fresh_fifo_contents⟩

/-- C10: one execution of the inspector reads `total = |b|`, previews exactly
the first `min |b| 32` bytes of the buffer content `b` (at most 32) and leaves
the driver data, hence the buffer content and the stored count, unchanged;
after any number of executions a read behaves exactly as before them. -/
theorem C10_inspector_is_nondestructive (tx : List Byte → Int) (env : ReadEnv)
    (priv : uart3_echo_priv) (f_flags len n : Nat) (hf : kfifo_wf priv.fifo) :
    uart3_echo_poll_peek priv =
      ((kfifo_contents priv.fifo).length, min (kfifo_contents priv.fifo).length 32,
        (kfifo_contents priv.fifo).take (min (kfifo_contents priv.fifo).length 32)) ∧
    (uart3_echo_poll_peek priv).2.2.length ≤ 32 ∧
    (uart3_echo_poll priv).1 = priv ∧
    kfifo_contents (uart3_echo_poll priv).1.fifo = kfifo_contents priv.fifo ∧
    kfifo_len (uart3_echo_poll priv).1.fifo = kfifo_len priv.fifo ∧
    poll_times n priv = priv ∧
    uart3_echo_chr_read tx env (poll_times n priv) f_flags len =
      uart3_echo_chr_read tx env priv f_flags len := by
  have hpoll : (uart3_echo_poll priv).1 = priv := rfl
  have hpt : poll_times n priv = priv := Function.iterate_fixed hpoll n
  have hpeek : uart3_echo_poll_peek priv =
      ((kfifo_contents priv.fifo).length, min (kfifo_contents priv.fifo).length 32,
        (kfifo_contents priv.fifo).take (min (kfifo_contents priv.fifo).length 32)) := by
    have hl : kfifo_len priv.fifo ≤ 4096 := hf.2.2.2.2
    have hsz : min (kfifo_len priv.fifo) 32 < UINT_MOD := by unfold UINT_MOD; omega
    rw [kfifo_contents_length]
    by_cases h0 : min (kfifo_len priv.fifo) 32 = 0
    · have hl0 : (kfifo_contents priv.fifo).length = 0 := by
        rw [kfifo_contents_length]; omega
      simp only [uart3_echo_poll_peek, h0, ne_eq, not_true_eq_false, if_false, List.take_zero]
    · simp only [uart3_echo_poll_peek, h0, ne_eq, not_false_eq_true, if_true]
      rw [kfifo_out_peek_fst _ _ hsz, kfifo_out_peek_snd _ _ hf hsz]
      congr 2
      omega
  refine ⟨hpeek, ?_, hpoll, by rw [hpoll], by rw [hpoll], hpt, by rw [hpt]⟩
  rw [hpeek, List.length_take]
  omega

theorem C10_witness :
    kfifo_wf wrapped_priv.fifo ∧
      uart3_echo_poll_peek wrapped_priv = (3, 3, [1, 2, 3]) ∧
      uart3_echo_chr_read accepting_tx ⟨[], true, true⟩ (poll_times 5 wrapped_priv) 0 2 =
        uart3_echo_chr_read accepting_tx ⟨[], true, true⟩ wrapped_priv 0 2 := by
  have h := C10_inspector_is_nondestructive accepting_tx ⟨[], true, true⟩ wrapped_priv 0 2 5
    wrapped_fifo_wf
  rw [show wrapped_priv.fifo = wrapped_fifo from rfl, wrapped_fifo_contents] at h
  exact ⟨wrapped_fifo_wf, h.1, h.2.2.2.2.2.2⟩

/-! ## Inspector formatting -/

set_option maxRecDepth 100000 in
theorem scnprintf_02x_eq_spec :
    ∀ b : Byte, [hex_asc_lo (b.val / 16), hex_asc_lo (b.val % 16), ' '] = hex_group_spec b := by
  decide

theorem hex_group_spec_length (b : Byte) : (hex_group_spec b).length = 3 := by
  rw [← scnprintf_02x_eq_spec b]; rfl

theorem flatMap_hex_group_length (l : List Byte) :
    (l.flatMap hex_group_spec).length = 3 * l.length := by
  induction l with
  | nil => rfl
  | cons b l ih =>
    rw [List.flatMap_cons, List.length_append, hex_group_spec_length, ih, List.length_cons]
    omega

/-- The formatting loop writes one group per preview byte as long as the text
fits the 97-byte array, which 32 bytes always do. -/
theorem hex_loop_eq (l : List Byte) :
    ∀ (p : Nat) (hex : List Char), hex.length = p → p + 3 * l.length ≤ 96 →
      hex_loop l p hex = hex ++ l.flatMap hex_group_spec := by
  induction l with
  | nil => intro p hex _ _; simp [hex_loop]
  | cons b l ih =>
    intro p hex hp hfit
    rw [List.length_cons] at hfit
    have hguard : p + 3 < 97 := by omega
    have hs : scnprintf_02x (97 - p) b = hex_group_spec b := by
      rw [← scnprintf_02x_eq_spec b]
      unfold scnprintf_02x
      apply List.take_of_length_le
      simp only [List.length_cons, List.length_nil]
      omega
    have htake : hex.take p = hex := List.take_of_length_le (by omega)
    simp only [hex_loop, hguard, if_true, hs, htake]
    rw [ih (p + (hex_group_spec b).length) (hex ++ hex_group_spec b)
      (by rw [List.length_append, hp]) (by rw [hex_group_spec_length]; omega),
      List.flatMap_cons, List.append_assoc]

theorem uart3_echo_poll_peek_eq (priv : uart3_echo_priv) (hf : kfifo_wf priv.fifo) :
    uart3_echo_poll_peek priv =
      ((kfifo_contents priv.fifo).length, min (kfifo_contents priv.fifo).length 32,
        (kfifo_contents priv.fifo).take 32) := by
  have hl : kfifo_len priv.fifo ≤ 4096 := hf.2.2.2.2
  have hsz : min (kfifo_len priv.fifo) 32 < UINT_MOD := by unfold UINT_MOD; omega
  have hlen := kfifo_contents_length priv.fifo
  by_cases h0 : min (kfifo_len priv.fifo) 32 = 0
  · have hnil : kfifo_contents priv.fifo = [] := by
      rw [← List.length_eq_zero, hlen]; omega
    simp only [uart3_echo_poll_peek, h0, ne_eq, not_true_eq_false, if_false, hnil,
      List.take_nil, List.length_nil]
    congr 1
    rw [← hlen, hnil]; rfl
  · simp only [uart3_echo_poll_peek, h0, ne_eq, not_false_eq_true, if_true]
    rw [kfifo_out_peek_fst _ _ hsz, kfifo_out_peek_snd _ _ hf hsz, hlen]
    congr 2
    · omega
    · rw [← hlen, Nat.min_comm, take_min_length]

theorem forty_fifo_wf : kfifo_wf forty_fifo :=
  ⟨rfl, by
    show (forty_bytes ++ List.replicate 4056 (0 : Byte)).length = 4096
    rw [List.length_append, List.length_replicate]; rfl,
   by decide, by decide, by decide⟩

set_option maxRecDepth 100000 in
theorem forty_fifo_contents : kfifo_contents forty_fifo = forty_bytes := by
  decide

/-- Events of one inspector execution in terms of the buffer content. -/
theorem uart3_echo_poll_events (priv : uart3_echo_priv) (hf : kfifo_wf priv.fifo) :
    (uart3_echo_poll priv).2 =
      [if (kfifo_contents priv.fifo).length ≠ 0 then
          Event.dev_info ("poll " ++ toString priv.period_ms ++ " ms: fifo " ++
            toString (kfifo_contents priv.fifo).length ++ " bytes, first " ++
            toString (min (kfifo_contents priv.fifo).length 32) ++ ": " ++
            String.mk (((kfifo_contents priv.fifo).take
              (min (kfifo_contents priv.fifo).length 32)).flatMap hex_group_spec) ++ "\n")
        else Event.dev_dbg ("poll " ++ toString priv.period_ms ++ " ms: no data\n"),
       Event.schedule_delayed_work priv.period_ms] := by
  have hp := uart3_echo_poll_peek_eq priv hf
  have htk : ((kfifo_contents priv.fifo).take 32).take (min (kfifo_contents priv.fifo).length 32)
      = (kfifo_contents priv.fifo).take (min (kfifo_contents priv.fifo).length 32) := by
    rw [List.take_take]; congr 1; omega
  have hfit : 0 + 3 * ((kfifo_contents priv.fifo).take
      (min (kfifo_contents priv.fifo).length 32)).length ≤ 96 := by
    rw [List.length_take]; omega
  have hloop := hex_loop_eq _ 0 [] rfl hfit
  rw [List.nil_append] at hloop
  simp only [uart3_echo_poll, hp, htk, hloop]

/-! ## Verified properties of the inspector line and of teardown -/

/-- C11: with `total ≥ 1` bytes buffered, one inspector execution logs (at info
level) the line `poll <period> ms: fifo <total> bytes, first <k>: <hex>` with
`k = min total 32` and `<hex>` one group per leading byte, each group the
two-digit lowercase hexadecimal value of the byte followed by one space; the
hex text has `3k` characters, which with its terminating NUL fits the 97-byte
array, and all 32 bytes are shown when `total ≥ 32`.  With an empty buffer it
logs (at debug level) `poll <period> ms: no data` instead.  Either way it
re-arms itself for the same period. -/
theorem C11_inspector_line_format (priv : uart3_echo_priv) (hf : kfifo_wf priv.fifo) :
    (1 ≤ (kfifo_contents priv.fifo).length →
      (uart3_echo_poll priv).2 =
        [Event.dev_info ("poll " ++ toString priv.period_ms ++ " ms: fifo " ++
            toString (kfifo_contents priv.fifo).length ++ " bytes, first " ++
            toString (min (kfifo_contents priv.fifo).length 32) ++ ": " ++
            String.mk (((kfifo_contents priv.fifo).take
              (min (kfifo_contents priv.fifo).length 32)).flatMap hex_group_spec) ++ "\n"),
         Event.schedule_delayed_work priv.period_ms] ∧
      (((kfifo_contents priv.fifo).take
        (min (kfifo_contents priv.fifo).length 32)).flatMap hex_group_spec).length =
          3 * min (kfifo_contents priv.fifo).length 32 ∧
      3 * min (kfifo_contents priv.fifo).length 32 + 1 ≤ 97 ∧
      (32 ≤ (kfifo_contents priv.fifo).length →
        ((kfifo_contents priv.fifo).take
          (min (kfifo_contents priv.fifo).length 32)).length = 32)) ∧
    (kfifo_contents priv.fifo = [] →
      (uart3_echo_poll priv).2 =
        [Event.dev_dbg ("poll " ++ toString priv.period_ms ++ " ms: no data\n"),
         Event.schedule_delayed_work priv.period_ms]) := by
  have hev := uart3_echo_poll_events priv hf
  constructor
  · intro h1
    have hne : (kfifo_contents priv.fifo).length ≠ 0 := by omega
    refine ⟨?_, ?_, by omega, ?_⟩
    · rw [hev, if_pos hne]
    · rw [flatMap_hex_group_length, List.length_take]; omega
    · intro h32
      rw [List.length_take]; omega
  · intro hnil
    rw [hev, hnil]
    rfl

theorem C11_witness :
    (uart3_echo_poll forty_priv).2 =
      [Event.dev_info ("poll 1000 ms: fifo 40 bytes, first 32: " ++
          "00 01 02 03 04 05 06 07 08 09 0a 0b 0c 0d 0e 0f " ++
          "10 11 12 13 14 15 16 17 18 19 1a 1b 1c 1d 1e 1f \n"),
       Event.schedule_delayed_work 1000] ∧
    (uart3_echo_poll fresh_priv).2 =
      [Event.dev_dbg "poll 1000 ms: no data\n", Event.schedule_delayed_work 1000] := by
  have h1 := (C11_inspector_line_format forty_priv forty_fifo_wf).1
  have h2 := (C11_inspector_line_format fresh_priv fresh_fifo_wf).2 fresh_fifo_contents
  rw [show forty_priv.fifo = forty_fifo from rfl, forty_fifo_contents] at h1
  refine ⟨?_, ?_⟩
  · rw [(h1 (by decide)).1]
    decide
  · rw [h2]
    decide

/-- C12 as stated fails: in Scenario E (period 1000 ms, forty bytes buffered) the
first inspector execution logs the data line, and the execution that follows
it, with nothing received and nothing read in between, logs that data line
again; no `no data` line is emitted. -/
theorem C12_second_tick_is_not_no_data :
    (uart3_echo_poll forty_priv).2 =
      [Event.dev_info ("poll 1000 ms: fifo 40 bytes, first 32: " ++
          "00 01 02 03 04 05 06 07 08 09 0a 0b 0c 0d 0e 0f " ++
          "10 11 12 13 14 15 16 17 18 19 1a 1b 1c 1d 1e 1f \n"),
       Event.schedule_delayed_work 1000] ∧
    ¬ (uart3_echo_poll (uart3_echo_poll forty_priv).1).2 =
      [Event.dev_dbg "poll 1000 ms: no data\n", Event.schedule_delayed_work 1000] ∧
    Event.dev_dbg "poll 1000 ms: no data\n" ∉ (uart3_echo_poll (uart3_echo_poll forty_priv).1).2 := by
  have hev := uart3_echo_poll_events forty_priv forty_fifo_wf
  rw [show forty_priv.fifo = forty_fifo from rfl, forty_fifo_contents] at hev
  have hsame : (uart3_echo_poll forty_priv).1 = forty_priv := rfl
  rw [hsame, hev]
  decide

/-- C12 amended: when the buffer holds `total ≥ 1` bytes, the inspector execution
that follows an execution, with nothing received and nothing read in between,
finds the buffer as it was and logs the same data line again (same total, same
`first k` preview), then re-arms; it does not log the `no data` line. -/
theorem C12_second_tick_repeats_data_line (priv : uart3_echo_priv)
    (hf : kfifo_wf priv.fifo) (hne : 1 ≤ (kfifo_contents priv.fifo).length) :
    kfifo_contents (uart3_echo_poll priv).1.fifo = kfifo_contents priv.fifo ∧
    (uart3_echo_poll (uart3_echo_poll priv).1).2 = (uart3_echo_poll priv).2 ∧
    (uart3_echo_poll (uart3_echo_poll priv).1).2 =
      [Event.dev_info ("poll " ++ toString priv.period_ms ++ " ms: fifo " ++
          toString (kfifo_contents priv.fifo).length ++ " bytes, first " ++
          toString (min (kfifo_contents priv.fifo).length 32) ++ ": " ++
          String.mk (((kfifo_contents priv.fifo).take
            (min (kfifo_contents priv.fifo).length 32)).flatMap hex_group_spec) ++ "\n"),
       Event.schedule_delayed_work priv.period_ms] ∧
    Event.dev_dbg ("poll " ++ toString priv.period_ms ++ " ms: no data\n") ∉
      (uart3_echo_poll (uart3_echo_poll priv).1).2 := by
  have hsame : (uart3_echo_poll priv).1 = priv := rfl
  have hev := uart3_echo_poll_events priv hf
  have hz : (kfifo_contents priv.fifo).length ≠ 0 := by omega
  rw [if_pos hz] at hev
  refine ⟨by rw [hsame], by rw [hsame], by rw [hsame, hev], ?_⟩
  rw [hsame, hev]
  simp

theorem C12_witness :
    (uart3_echo_poll (uart3_echo_poll forty_priv).1).2 =
      [Event.dev_info ("poll 1000 ms: fifo 40 bytes, first 32: " ++
          "00 01 02 03 04 05 06 07 08 09 0a 0b 0c 0d 0e 0f " ++
          "10 11 12 13 14 15 16 17 18 19 1a 1b 1c 1d 1e 1f \n"),
       Event.schedule_delayed_work 1000] := by
  have h := (C12_second_tick_repeats_data_line forty_priv forty_fifo_wf
    (by rw [show forty_priv.fifo = forty_fifo from rfl, forty_fifo_contents]; decide)).2.2.1
  rw [show forty_priv.fifo = forty_fifo from rfl, forty_fifo_contents] at h
  rw [h]
  decide

/-- C13 fails on the code: on teardown of a bound device `uart3_echo_remove`
cancels the inspector, deregisters the endpoint, frees the buffer and only then
closes the transport, so `kfifo_free` precedes `serdev_device_close`; the order
of the specification (close the transport, then free the buffer) is the one
the probe uses when it unwinds after a failed `misc_register`. -/
theorem C13_remove_frees_buffer_before_closing_transport (priv : uart3_echo_priv)
    (fifo : kfifo) :
    uart3_echo_remove (some priv) =
      [Event.cancel_delayed_work_sync, Event.misc_deregister, Event.kfifo_free,
       Event.serdev_device_close] ∧
    uart3_echo_remove (some priv) ≠
      [Event.cancel_delayed_work_sync, Event.misc_deregister, Event.serdev_device_close,
       Event.kfifo_free] ∧
    List.indexOf Event.kfifo_free (uart3_echo_remove (some priv)) <
      List.indexOf Event.serdev_device_close (uart3_echo_remove (some priv)) ∧
    uart3_echo_probe misc_register_fails fifo =
      (-16, none,
        [Event.serdev_device_open, Event.serdev_device_set_flow_control false,
         Event.serdev_device_set_baudrate 115200, Event.serdev_device_write_buf hello,
         Event.schedule_delayed_work 1000, Event.misc_register,
         Event.dev_err "failed to register miscdev: -16\n",
         Event.cancel_delayed_work_sync, Event.serdev_device_close, Event.kfifo_free]) := by
  have hrem : uart3_echo_remove (some priv) =
      [Event.cancel_delayed_work_sync, Event.misc_deregister, Event.kfifo_free,
       Event.serdev_device_close] := rfl
  refine ⟨hrem, ?_, ?_, ?_⟩
  · rw [hrem]; decide
  · rw [hrem]; decide
  · have hs : ("failed to register miscdev: " ++ toString (-16 : Int) ++ "\n") =
        "failed to register miscdev: -16\n" := by decide
    simp only [uart3_echo_probe, misc_register_fails, Option.getD_none, Bool.not_true,
      Bool.false_eq_true, if_false, ne_eq, not_true_eq_false, hs]
    simp

end Uart3Echo
